import Mathlib

/-!
Shallow embedding of the MikroID identifier generator (a single TypeScript
class): alphabet resolution (`getCharacterSet`), configuration normalization
(`generateConfig`), the rejection-sampling generator (`generateId`), and the
named-configuration registry operations (`add`, `remove`, `create`, `custom`).

Modelling conventions:
- JS numbers used as identifier lengths are modelled as `Int` (the claims only
  concern integer lengths); alphabet indices and counts are `Nat`.
- The cryptographically secure byte source (`getRandomValues`) is modelled as
  an explicit stream `Nat → Nat`, reduced mod 256 at the point where the code
  fills a `Uint8Array`; the unbounded retry loop of `generateId` takes fuel
  and returns `none` when the fuel runs out.
- JS exceptions are modelled with `Except MikroErr`; `errMessage` renders the
  exact message strings the code throws.
- Optional / possibly-absent JS values are `Option` fields; the `||` default
  substitution (which also replaces falsy `0` and `""`) and the `??` nullish
  coalescing (which keeps an explicit `false`) are modelled separately.
-/

namespace MikroID

/-- Error kinds thrown by the class, tagged with the data their message
interpolates. -/
inductive MikroErr where
  | missingName : MikroErr
  | configurationNotFound : String → MikroErr
  | invalidLength : MikroErr
  | invalidStyle : String → MikroErr
deriving DecidableEq

/-- The exact `Error` message strings the source constructs. -/
def errMessage : MikroErr → String
  | .missingName => "Missing name for the ID configuration"
  | .configurationNotFound name => "No configuration found with name: " ++ name
  | .invalidLength => "ID length cannot be negative"
  | .invalidStyle style =>
      "Unknown ID style \"" ++ style ++
        " provided. Must be one of \"extended\" (default), \"alphanumeric\", or \"hex\"."

/-- A fully resolved configuration (`IdConfiguration` in the source, as it is
after `generateConfig`: every field populated). `style` is a string at runtime
in JS, so it is a `String` here. -/
structure IdConfiguration where
  name : String
  length : Int
  onlyLowerCase : Bool
  style : String
  urlSafe : Bool
deriving DecidableEq

/-- A caller-supplied, possibly incomplete configuration
(`IdConfigurationOptions` in the source); absent fields are `none`. -/
structure IdConfigurationOptions where
  name : Option String
  length : Option Int
  onlyLowerCase : Option Bool
  style : Option String
  urlSafe : Option Bool
deriving DecidableEq

/-- `getCharacterSet(style, onlyLowerCase, urlSafe)`: the alphabet resolver.
An unrecognized style throws; that is the `Except.error` branch. -/
def getCharacterSet (style : String) (onlyLowerCase : Bool) (urlSafe : Bool) :
    Except MikroErr String :=
  if style = "hex" then
    .ok (if onlyLowerCase then "0123456789abcdef" else "0123456789ABCDEFabcdef")
  else if style = "alphanumeric" then
    .ok (if onlyLowerCase then
      "abcdefghijklmnopqrstuvwxyz0123456789"
    else
      "ABCDEFGHIJKLMNOPQRSTUVWXYZabcdefghijklmnopqrstuvwxyz0123456789")
  else if style = "extended" then
    if urlSafe then
      .ok (if onlyLowerCase then
        "abcdefghijklmnopqrstuvwxyz0123456789-._~"
      else
        "ABCDEFGHIJKLMNOPQRSTUVWXYZabcdefghijklmnopqrstuvwxyz0123456789-._~")
    else
      .ok (if onlyLowerCase then
        "abcdefghijklmnopqrstuvwxyz0123456789-._~!$()*+,;=:"
      else
        "ABCDEFGHIJKLMNOPQRSTUVWXYZabcdefghijklmnopqrstuvwxyz0123456789-._~!$()*+,;=:")
  else
    .error (.invalidStyle style)

/-- `generateConfig(options)`: merge caller fields over the defaults.
`name`, `length` and `style` use JS `||` (a falsy value — absent, `0`, `""` —
is replaced by the default); `onlyLowerCase` and `urlSafe` use `??` (only an
absent value is replaced, an explicit `false` is kept). -/
def generateConfig (options : IdConfigurationOptions) : IdConfiguration :=
  ⟨(match options.name with
    | none => ""
    | some s => if s = "" then "" else s),
   (match options.length with
    | none => 16
    | some l => if l = 0 then 16 else l),
   options.onlyLowerCase.getD false,
   (match options.style with
    | none => "extended"
    | some s => if s = "" then "extended" else s),
   options.urlSafe.getD true⟩

/-- Fuelled floor of log base 2; `log2floorAux n n` computes
`floor (log2 n)` for `n ≥ 1` (n halvings always suffice). -/
def log2floorAux : Nat → Nat → Nat
  | 0, _ => 0
  | fuel + 1, n => if 2 ≤ n then log2floorAux fuel (n / 2) + 1 else 0

/-- Floor of log base 2 (0 at 0 and 1), structurally computable. -/
def log2floor (n : Nat) : Nat := log2floorAux n n

/-- The mask the source computes:
`(2 << (Math.log(n - 1) / Math.LN2)) - 1`, i.e. `2 ^ (⌊log2 (n-1)⌋ + 1) - 1`
(`<<` truncates its float right operand toward zero; for every alphabet size
the code can produce, 16 ≤ n ≤ 76, the float computation of `log2 (n-1)` is
exact enough that the truncation equals the integer floor). -/
def maskFor (n : Nat) : Nat := 2 ^ (log2floor (n - 1) + 1) - 1

/-- The per-batch byte count: `Math.ceil((1.6 * mask * length) / n)`,
written with exact rational arithmetic as `⌈16 * mask * length / (10 * n)⌉`. -/
def stepFor (mask len n : Nat) : Nat := (16 * mask * len + (10 * n - 1)) / (10 * n)

/-- The inner `for` loop of `generateId`: mask each byte (`byte & mask`),
accept it as an index when it is below the alphabet size, append the indexed
character, and break as soon as the id reaches the target length. -/
def processBatch (chars : List Char) (mask len : Nat) :
    List Nat → List Char → List Char
  | [], id => id
  | b :: rest, id =>
    if h : b &&& mask < chars.length then
      if (id ++ [chars.get ⟨b &&& mask, h⟩]).length = len then
        id ++ [chars.get ⟨b &&& mask, h⟩]
      else
        processBatch chars mask len rest (id ++ [chars.get ⟨b &&& mask, h⟩])
    else
      processBatch chars mask len rest id

/-- The outer `while (id.length < length)` loop of `generateId`: each
iteration draws a fresh batch of `step` bytes from the stream. `fuel` bounds
the number of iterations; `none` means the fuel ran out first. -/
def genLoop (chars : List Char) (mask step len : Nat) (stream : Nat → Nat) :
    Nat → Nat → List Char → Option (List Char)
  | 0, _, id => if id.length < len then none else some id
  | fuel + 1, pos, id =>
    if id.length < len then
      genLoop chars mask step len stream fuel (pos + step)
        (processBatch chars mask len
          ((List.range step).map fun i => stream (pos + i) % 256) id)
    else
      some id

/-- `generateId(options)`: reject non-positive lengths, resolve the alphabet,
compute mask and step, then run the sampling loop. -/
def generateId (cfg : IdConfiguration) (stream : Nat → Nat) (fuel : Nat) :
    Except MikroErr (Option String) :=
  if cfg.length ≤ 0 then .error .invalidLength
  else
    match getCharacterSet cfg.style cfg.onlyLowerCase cfg.urlSafe with
    | .error e => .error e
    | .ok characters =>
      let chars := characters.data
      let n := chars.length
      let mask := maskFor n
      let step := stepFor mask cfg.length.toNat n
      .ok ((genLoop chars mask step cfg.length.toNat stream fuel 0 []).map String.mk)

/-- The `options` field of the class: the registry mapping names to stored
configurations. -/
abbrev Registry := String → Option IdConfiguration

/-- The registry of a freshly constructed instance with no constructor
argument. -/
def emptyRegistry : Registry := fun _ => none

/-- One constructor step: normalize an entry with `generateConfig` and store
it under its key. -/
def storeEntry (m : Registry) (p : String × IdConfigurationOptions) : Registry :=
  fun k => if k = p.1 then some (generateConfig p.2) else m k

/-- The constructor with an initial mapping: each entry is normalized with
`generateConfig` and stored under its key (later entries win, as for JS
object keys). -/
def mkMikroID (init : List (String × IdConfigurationOptions)) : Registry :=
  init.foldl storeEntry emptyRegistry

/-- `add(config)`: reject a falsy (absent or empty) name, otherwise store the
normalized configuration under `config.name`, overwriting any entry. -/
def add (reg : Registry) (config : IdConfigurationOptions) :
    Except MikroErr Unit × Registry :=
  match config.name with
  | none => (.error .missingName, reg)
  | some n =>
    if n = "" then (.error .missingName, reg)
    else (.ok (), fun k => if k = n then some (generateConfig config) else reg k)

/-- `remove(config)`: reject a falsy (absent or empty) name, otherwise delete
the entry for `config.name` (no error when absent). -/
def remove (reg : Registry) (config : IdConfigurationOptions) :
    Except MikroErr Unit × Registry :=
  match config.name with
  | none => (.error .missingName, reg)
  | some n =>
    if n = "" then (.error .missingName, reg)
    else (.ok (), fun k => if k = n then none else reg k)

/-- `create(length?, style?, onlyLowerCase?, urlSafe?)`: normalize the ad-hoc
fields and generate; the registry is not touched. -/
def create (reg : Registry) (length : Option Int) (style : Option String)
    (onlyLowerCase : Option Bool) (urlSafe : Option Bool)
    (stream : Nat → Nat) (fuel : Nat) :
    Except MikroErr (Option String) × Registry :=
  (generateId (generateConfig ⟨none, length, onlyLowerCase, style, urlSafe⟩)
    stream fuel, reg)

/-- `custom(name)`: look the name up (a stored configuration object is always
truthy) and generate with it, else throw `ConfigurationNotFound`. -/
def custom (reg : Registry) (name : String) (stream : Nat → Nat) (fuel : Nat) :
    Except MikroErr (Option String) × Registry :=
  match reg name with
  | some cfg => (generateId cfg stream fuel, reg)
  | none => (.error (.configurationNotFound name), reg)

deriving instance DecidableEq for Except

/-! ## Helper lemmas -/

/-- The inner loop never grows the id beyond the target length: starting
strictly below `len`, it ends at or below `len`. -/
lemma processBatch_length_le (chars : List Char) (mask len : Nat) :
    ∀ (bytes : List Nat) (id : List Char), id.length < len →
      (processBatch chars mask len bytes id).length ≤ len := by
  intro bytes
  induction bytes with
  | nil => intro id h; exact Nat.le_of_lt h
  | cons b rest ih =>
    intro id h
    rw [processBatch]
    split
    · split
      · next heq => exact Nat.le_of_eq heq
      · next hne =>
        apply ih
        have : (id ++ [chars.get ⟨b &&& mask, by assumption⟩]).length = id.length + 1 := by
          simp
        omega
    · exact ih id h

/-- Every character the inner loop appends comes from the alphabet. -/
lemma processBatch_mem (chars : List Char) (mask len : Nat) :
    ∀ (bytes : List Nat) (id : List Char), (∀ c ∈ id, c ∈ chars) →
      ∀ c ∈ processBatch chars mask len bytes id, c ∈ chars := by
  intro bytes
  induction bytes with
  | nil => intro id h; exact h
  | cons b rest ih =>
    intro id h c hc
    rw [processBatch] at hc
    split at hc
    · next h1 =>
      have hstep : ∀ x ∈ id ++ [chars.get ⟨b &&& mask, h1⟩], x ∈ chars := by
        intro x hx
        rcases List.mem_append.mp hx with hx | hx
        · exact h x hx
        · rcases List.mem_singleton.mp hx with rfl
          exact List.get_mem ..
      split at hc
      · exact hstep c hc
      · exact ih _ hstep c hc
    · exact ih id h c hc

/-- When the outer loop returns an id, that id has exactly the target length
and uses only alphabet characters. -/
lemma genLoop_some (chars : List Char) (mask step len : Nat) (stream : Nat → Nat) :
    ∀ (fuel pos : Nat) (id out : List Char), id.length ≤ len →
      (∀ c ∈ id, c ∈ chars) →
      genLoop chars mask step len stream fuel pos id = some out →
      out.length = len ∧ ∀ c ∈ out, c ∈ chars := by
  intro fuel
  induction fuel with
  | zero =>
    intro pos id out hle hmem hgen
    rw [genLoop] at hgen
    split at hgen
    · exact absurd hgen (by simp)
    · next hlt =>
      cases hgen
      exact ⟨Nat.le_antisymm hle (Nat.le_of_not_lt hlt), hmem⟩
  | succ fuel ih =>
    intro pos id out hle hmem hgen
    rw [genLoop] at hgen
    split at hgen
    · next hlt =>
      exact ih _ _ _ (processBatch_length_le chars mask len _ id hlt)
        (processBatch_mem chars mask len _ id hmem) hgen
    · next hlt =>
      cases hgen
      exact ⟨Nat.le_antisymm hle (Nat.le_of_not_lt hlt), hmem⟩

/-- The alphabet resolver only ever fails with `InvalidStyle` on its input
style. -/
lemma getCharacterSet_error_eq (s : String) (lc us : Bool) (e : MikroErr) :
    getCharacterSet s lc us = .error e → e = .invalidStyle s := by
  intro h
  unfold getCharacterSet at h
  split_ifs at h
  all_goals simp_all

/-- `generateId` never fails with `ConfigurationNotFound`. -/
lemma generateId_ne_configurationNotFound (cfg : IdConfiguration)
    (stream : Nat → Nat) (fuel : Nat) (nm : String) :
    generateId cfg stream fuel ≠ .error (.configurationNotFound nm) := by
  unfold generateId
  split
  · simp
  · cases hgc : getCharacterSet cfg.style cfg.onlyLowerCase cfg.urlSafe with
    | error e =>
      have := getCharacterSet_error_eq _ _ _ _ hgc
      subst this
      simp
    | ok characters => simp

/-- Minimality core for the mask shape: a mask of the form `2 ^ (j+1) - 1`
whose lower half `2 ^ j` is still within the target is below every mask
`2 ^ k - 1` that covers the target. -/
lemma two_pow_mask_min (j k t : Nat) (h1 : 2 ^ j ≤ t) (h2 : t ≤ 2 ^ k - 1) :
    2 ^ (j + 1) - 1 ≤ 2 ^ k - 1 := by
  have hjk : j < k := by
    have hpos : 0 < 2 ^ k := Nat.pos_pow_of_pos k (by norm_num)
    have h3 : 2 ^ j < 2 ^ k := by omega
    exact (Nat.pow_lt_pow_iff_right (by norm_num)).mp h3
  have h4 : 2 ^ (j + 1) ≤ 2 ^ k := Nat.pow_le_pow_right (by norm_num) hjk
  omega

/-- Folding constructor entries whose keys avoid `k` leaves the registry at
`k` unchanged. -/
lemma foldl_storeEntry_notin (k : String) :
    ∀ (rest : List (String × IdConfigurationOptions)) (m : Registry),
      k ∉ rest.map Prod.fst → (rest.foldl storeEntry m) k = m k := by
  intro rest
  induction rest with
  | nil => intro m _; rfl
  | cons q qs ih =>
    intro m hk
    rw [List.map_cons, List.mem_cons] at hk
    push_neg at hk
    rw [List.foldl_cons, ih _ hk.2]
    simp [storeEntry, hk.1]

/-- With duplicate-free keys, the constructed registry stores the normalized
form of every initial entry. -/
lemma foldl_storeEntry_mem :
    ∀ (init : List (String × IdConfigurationOptions)) (m : Registry),
      (init.map Prod.fst).Nodup →
      ∀ p ∈ init, (init.foldl storeEntry m) p.1 = some (generateConfig p.2) := by
  intro init
  induction init with
  | nil => intro m _ p hp; exact absurd hp (List.not_mem_nil p)
  | cons q qs ih =>
    intro m hnd p hp
    rw [List.map_cons, List.nodup_cons] at hnd
    rw [List.foldl_cons]
    rcases List.mem_cons.mp hp with rfl | hp
    · rw [foldl_storeEntry_notin _ _ _ hnd.1]
      simp [storeEntry]
    · exact ih _ hnd.2 p hp

/-- Dispatch form of `generateId` when the length guard and the alphabet
resolution both pass. -/
lemma generateId_ok (cfg : IdConfiguration) (alpha : String) (stream : Nat → Nat)
    (fuel : Nat) (h0 : ¬ cfg.length ≤ 0)
    (hstyle : getCharacterSet cfg.style cfg.onlyLowerCase cfg.urlSafe = .ok alpha) :
    generateId cfg stream fuel =
      .ok ((genLoop alpha.data (maskFor alpha.data.length)
        (stepFor (maskFor alpha.data.length) cfg.length.toNat alpha.data.length)
        cfg.length.toNat stream fuel 0 []).map String.mk) := by
  unfold generateId
  rw [if_neg h0, hstyle]

/-- A successful `generateId` run yields exactly `length` characters, all
from the resolved alphabet. -/
lemma generateId_ok_spec (cfg : IdConfiguration) (alpha : String)
    (stream : Nat → Nat) (fuel : Nat) (s : String) (h0 : ¬ cfg.length ≤ 0)
    (hstyle : getCharacterSet cfg.style cfg.onlyLowerCase cfg.urlSafe = .ok alpha)
    (hgen : generateId cfg stream fuel = .ok (some s)) :
    s.length = cfg.length.toNat ∧ ∀ c ∈ s.data, c ∈ alpha.data := by
  rw [generateId_ok cfg alpha stream fuel h0 hstyle] at hgen
  have hmap := Except.ok.inj hgen
  obtain ⟨l, hl, hmk⟩ := Option.map_eq_some'.mp hmap
  have hspec := genLoop_some alpha.data (maskFor alpha.data.length)
    (stepFor (maskFor alpha.data.length) cfg.length.toNat alpha.data.length)
    cfg.length.toNat stream fuel 0 [] l (Nat.zero_le _) (by simp) hl
  subst hmk
  exact ⟨hspec.1, hspec.2⟩

/-! ## Claims -/

/-- C1: for every configuration whose length is a positive integer and whose
style resolves to an alphabet, `generateId` returns (whenever the sampling
loop completes) a string of exactly `length` characters, each a member of the
alphabet resolved from `(style, onlyLowerCase, urlSafe)`; the loop stops
exactly at `length` and never overshoots. -/
theorem generateId_length_and_alphabet (cfg : IdConfiguration) (alpha : String)
    (stream : Nat → Nat) (fuel : Nat) (s : String)
    (hstyle : getCharacterSet cfg.style cfg.onlyLowerCase cfg.urlSafe = .ok alpha)
    (hpos : 0 < cfg.length)
    (hgen : generateId cfg stream fuel = .ok (some s)) :
    s.length = cfg.length.toNat ∧ ∀ c ∈ s.data, c ∈ alpha.data :=
  generateId_ok_spec cfg alpha stream fuel s (not_le.mpr hpos) hstyle hgen

/-- Witness for C1: the default configuration with the identity byte stream
accepts the first sixteen alphabet characters. -/
theorem generateId_length_and_alphabet_witness :
    ("ABCDEFGHIJKLMNOP" : String).length = (16 : Int).toNat :=
  (generateId_length_and_alphabet ⟨"", 16, false, "extended", true⟩
    "ABCDEFGHIJKLMNOPQRSTUVWXYZabcdefghijklmnopqrstuvwxyz0123456789-._~"
    (fun i => i) 1 "ABCDEFGHIJKLMNOP" rfl (by decide) (by decide)).1

/-- C3: `create(0)` does not raise `InvalidLength`: a zero (falsy) length is
replaced by the default during normalization, so the call never errors and
any returned string has length 16. -/
theorem create_zero_uses_default (reg : Registry) (stream : Nat → Nat)
    (fuel : Nat) :
    (generateConfig ⟨none, some 0, none, none, none⟩).length = 16 ∧
    (∀ e, (create reg (some 0) none none none stream fuel).1 ≠ .error e) ∧
    (∀ s, (create reg (some 0) none none none stream fuel).1 = .ok (some s) →
      s.length = 16) := by
  have hok := generateId_ok (generateConfig ⟨none, some 0, none, none, none⟩)
    "ABCDEFGHIJKLMNOPQRSTUVWXYZabcdefghijklmnopqrstuvwxyz0123456789-._~"
    stream fuel (by decide) rfl
  refine ⟨rfl, ?_, ?_⟩
  · intro e
    show generateId (generateConfig ⟨none, some 0, none, none, none⟩)
        stream fuel ≠ .error e
    rw [hok]
    simp
  · intro s hs
    exact (generateId_ok_spec (generateConfig ⟨none, some 0, none, none, none⟩)
      "ABCDEFGHIJKLMNOPQRSTUVWXYZabcdefghijklmnopqrstuvwxyz0123456789-._~"
      stream fuel s (by decide) rfl hs).1

/-- Witness for C3: with the identity byte stream and one unit of fuel,
`create(0)` returns a sixteen-character id. -/
theorem create_zero_uses_default_witness :
    ("ABCDEFGHIJKLMNOP" : String).length = 16 :=
  (create_zero_uses_default emptyRegistry (fun i => i) 1).2.2
    "ABCDEFGHIJKLMNOP" (by decide)

/-- C4: the alphabet resolver returns exactly the claimed duplicate-free
ordered strings for each (style, onlyLowerCase) pair, the extended alphabets
extend the alphanumeric ones with the symbol tails, and `urlSafe` has no
effect on the `hex` and `alphanumeric` results. -/
theorem getCharacterSet_exact : ∀ lc us : Bool,
    getCharacterSet "hex" lc us =
      .ok (if lc then "0123456789abcdef" else "0123456789ABCDEFabcdef") ∧
    getCharacterSet "alphanumeric" lc us =
      .ok (if lc then "abcdefghijklmnopqrstuvwxyz0123456789"
        else "ABCDEFGHIJKLMNOPQRSTUVWXYZabcdefghijklmnopqrstuvwxyz0123456789") ∧
    getCharacterSet "extended" lc true =
      .ok ((if lc then "abcdefghijklmnopqrstuvwxyz0123456789"
        else "ABCDEFGHIJKLMNOPQRSTUVWXYZabcdefghijklmnopqrstuvwxyz0123456789") ++
          "-._~") ∧
    getCharacterSet "extended" lc false =
      .ok ((if lc then "abcdefghijklmnopqrstuvwxyz0123456789"
        else "ABCDEFGHIJKLMNOPQRSTUVWXYZabcdefghijklmnopqrstuvwxyz0123456789") ++
          "-._~!$()*+,;=:") ∧
    getCharacterSet "hex" lc us = getCharacterSet "hex" lc (!us) ∧
    getCharacterSet "alphanumeric" lc us =
      getCharacterSet "alphanumeric" lc (!us) ∧
    ((if lc then "0123456789abcdef" else "0123456789ABCDEFabcdef") :
      String).data.Nodup ∧
    ((if lc then "abcdefghijklmnopqrstuvwxyz0123456789"
      else "ABCDEFGHIJKLMNOPQRSTUVWXYZabcdefghijklmnopqrstuvwxyz0123456789") ++
        "-._~" : String).data.Nodup ∧
    ((if lc then "abcdefghijklmnopqrstuvwxyz0123456789"
      else "ABCDEFGHIJKLMNOPQRSTUVWXYZabcdefghijklmnopqrstuvwxyz0123456789") ++
        "-._~!$()*+,;=:" : String).data.Nodup := by
  decide

/-- C5: for each of the eight resolvable alphabet sizes, the mask computed
by `generateId` is of the form `2 ^ k - 1`, covers `n - 1`, and is the
smallest such value. -/
theorem maskFor_smallest (n : Nat)
    (h : n ∈ [16, 22, 36, 40, 50, 62, 66, 76]) :
    n - 1 ≤ maskFor n ∧ (∃ k, maskFor n = 2 ^ k - 1) ∧
      ∀ k, n - 1 ≤ 2 ^ k - 1 → maskFor n ≤ 2 ^ k - 1 := by
  fin_cases h
  · refine ⟨by decide, ⟨4, by decide⟩, fun k hk => ?_⟩
    have h1 := two_pow_mask_min 3 k (16 - 1) (by decide) hk
    have h2 : maskFor 16 = 2 ^ (3 + 1) - 1 := by decide
    rw [h2]; exact h1
  · refine ⟨by decide, ⟨5, by decide⟩, fun k hk => ?_⟩
    have h1 := two_pow_mask_min 4 k (22 - 1) (by decide) hk
    have h2 : maskFor 22 = 2 ^ (4 + 1) - 1 := by decide
    rw [h2]; exact h1
  · refine ⟨by decide, ⟨6, by decide⟩, fun k hk => ?_⟩
    have h1 := two_pow_mask_min 5 k (36 - 1) (by decide) hk
    have h2 : maskFor 36 = 2 ^ (5 + 1) - 1 := by decide
    rw [h2]; exact h1
  · refine ⟨by decide, ⟨6, by decide⟩, fun k hk => ?_⟩
    have h1 := two_pow_mask_min 5 k (40 - 1) (by decide) hk
    have h2 : maskFor 40 = 2 ^ (5 + 1) - 1 := by decide
    rw [h2]; exact h1
  · refine ⟨by decide, ⟨6, by decide⟩, fun k hk => ?_⟩
    have h1 := two_pow_mask_min 5 k (50 - 1) (by decide) hk
    have h2 : maskFor 50 = 2 ^ (5 + 1) - 1 := by decide
    rw [h2]; exact h1
  · refine ⟨by decide, ⟨6, by decide⟩, fun k hk => ?_⟩
    have h1 := two_pow_mask_min 5 k (62 - 1) (by decide) hk
    have h2 : maskFor 62 = 2 ^ (5 + 1) - 1 := by decide
    rw [h2]; exact h1
  · refine ⟨by decide, ⟨7, by decide⟩, fun k hk => ?_⟩
    have h1 := two_pow_mask_min 6 k (66 - 1) (by decide) hk
    have h2 : maskFor 66 = 2 ^ (6 + 1) - 1 := by decide
    rw [h2]; exact h1
  · refine ⟨by decide, ⟨7, by decide⟩, fun k hk => ?_⟩
    have h1 := two_pow_mask_min 6 k (76 - 1) (by decide) hk
    have h2 : maskFor 76 = 2 ^ (6 + 1) - 1 := by decide
    rw [h2]; exact h1

/-- Witness for C5: at alphabet size 16 the mask is 15, which is at most the
next mask of the form `2 ^ 4 - 1`. -/
theorem maskFor_smallest_witness :
    16 - 1 ≤ maskFor 16 ∧ maskFor 16 ≤ 2 ^ 4 - 1 :=
  ⟨(maskFor_smallest 16 (by decide)).1,
    (maskFor_smallest 16 (by decide)).2.2 4 (by decide)⟩

/-- C9: every style outside the three known ones makes the resolver fail
with an `InvalidStyle` error whose message embeds the offending style value,
and the resolver succeeds for exactly the three known styles. -/
theorem getCharacterSet_invalidStyle (s : String) (lc us : Bool) :
    (s ∉ (["hex", "alphanumeric", "extended"] : List String) →
      getCharacterSet s lc us = .error (.invalidStyle s) ∧
      errMessage (.invalidStyle s) =
        "Unknown ID style \"" ++ s ++
          " provided. Must be one of \"extended\" (default), \"alphanumeric\", or \"hex\".") ∧
    (s ∈ (["hex", "alphanumeric", "extended"] : List String) →
      ∃ a, getCharacterSet s lc us = .ok a) := by
  constructor
  · intro h
    simp only [List.mem_cons, List.not_mem_nil, or_false, not_or] at h
    obtain ⟨h1, h2, h3⟩ := h
    exact ⟨by simp [getCharacterSet, h1, h2, h3], rfl⟩
  · intro h
    simp only [List.mem_cons, List.not_mem_nil, or_false] at h
    rcases h with rfl | rfl | rfl
    all_goals cases lc
    all_goals cases us
    all_goals exact ⟨_, rfl⟩

/-- Witness for C9: the style string `emoji` is rejected with an
`InvalidStyle` error naming it. -/
theorem getCharacterSet_invalidStyle_witness :
    getCharacterSet "emoji" false true = .error (.invalidStyle "emoji") ∧
    errMessage (.invalidStyle "emoji") =
      "Unknown ID style \"" ++ "emoji" ++
        " provided. Must be one of \"extended\" (default), \"alphanumeric\", or \"hex\"." :=
  (getCharacterSet_invalidStyle "emoji" false true).1 (by decide)

/-- C2 counterexample: a requested length of zero on the ad-hoc path does
not fail with `InvalidLength` — normalization replaces the falsy zero by the
default 16 and generation succeeds. -/
theorem create_zero_not_invalidLength :
    (create emptyRegistry (some 0) none none none (fun i => i) 1).1 ≠
        .error .invalidLength ∧
      (create emptyRegistry (some 0) none none none (fun i => i) 1).1 =
        .ok (some "ABCDEFGHIJKLMNOP") := by
  refine ⟨?_, by decide⟩
  intro h
  exact absurd h (by decide)

/-- C2 (amended): a negative requested length fails with `InvalidLength` on
the ad-hoc path, and on the named path any stored configuration whose length
is at most zero fails with `InvalidLength`; a zero length on the ad-hoc path
is replaced by the default instead of failing. -/
theorem negative_length_invalidLength (reg : Registry) (l : Int)
    (style : Option String) (olc us : Option Bool) (stream : Nat → Nat)
    (fuel : Nat) (name : String) (cfg : IdConfiguration) :
    (l < 0 →
      (create reg (some l) style olc us stream fuel).1 = .error .invalidLength) ∧
    (reg name = some cfg → cfg.length ≤ 0 →
      (custom reg name stream fuel).1 = .error .invalidLength) := by
  constructor
  · intro hl
    have hz : ¬ l = 0 := by omega
    show generateId (generateConfig ⟨none, some l, olc, style, us⟩)
        stream fuel = .error .invalidLength
    have hlen : (generateConfig ⟨none, some l, olc, style, us⟩).length = l := by
      simp [generateConfig, hz]
    unfold generateId
    rw [hlen, if_pos (by omega)]
  · intro hreg hlen
    show (match reg name with
      | some c => (generateId c stream fuel, reg)
      | none => (.error (.configurationNotFound name), reg)).1 =
        .error .invalidLength
    rw [hreg]
    show generateId cfg stream fuel = .error .invalidLength
    unfold generateId
    rw [if_pos hlen]

/-- Witness for C2 (amended): length −1 fails on the ad-hoc path, and a
registry holding a configuration of length −1 fails on the named path. -/
theorem negative_length_invalidLength_witness :
    (create emptyRegistry (some (-1)) none none none (fun i => i) 1).1 =
        .error .invalidLength ∧
      (custom (fun _ => some ⟨"x", -1, false, "extended", true⟩) "x"
        (fun i => i) 1).1 = .error .invalidLength :=
  ⟨(negative_length_invalidLength emptyRegistry (-1) none none none
      (fun i => i) 1 "x" ⟨"x", -1, false, "extended", true⟩).1 (by decide),
    (negative_length_invalidLength
      (fun _ => some ⟨"x", -1, false, "extended", true⟩) (-1) none none none
      (fun i => i) 1 "x" ⟨"x", -1, false, "extended", true⟩).2 rfl (by decide)⟩

/-- C6: `custom(name)` fails with `ConfigurationNotFound` naming `name`
exactly when no entry exists; otherwise it generates with the stored
configuration; and after an overwriting `add`, `custom` reflects the newly
added configuration. -/
theorem custom_lookup (reg : Registry) (name : String) (stream : Nat → Nat)
    (fuel : Nat) :
    ((custom reg name stream fuel).1 = .error (.configurationNotFound name) ↔
      reg name = none) ∧
    (∀ cfg, reg name = some cfg →
      (custom reg name stream fuel).1 = generateId cfg stream fuel) ∧
    (∀ (config : IdConfigurationOptions) (old : IdConfiguration),
      reg name = some old → config.name = some name → name ≠ "" →
      (custom (add reg config).2 name stream fuel).1 =
        generateId (generateConfig config) stream fuel) := by
  refine ⟨⟨?_, ?_⟩, ?_, ?_⟩
  · intro h
    cases hreg : reg name with
    | none => rfl
    | some cfg =>
      rw [show (custom reg name stream fuel).1 = generateId cfg stream fuel by
        simp [custom, hreg]] at h
      exact absurd h (generateId_ne_configurationNotFound cfg stream fuel name)
  · intro h
    simp [custom, h]
  · intro cfg h
    simp [custom, h]
  · intro config old hold hname hne
    have hstore : (add reg config).2 name = some (generateConfig config) := by
      simp [add, hname, hne]
    simp [custom, hstore]

/-- Witness for C6: overwriting the stored entry `a` makes `custom` use the
new configuration. -/
theorem custom_lookup_witness :
    (custom (add (fun k => if k = "a" then some ⟨"a", 8, false, "hex", true⟩
        else none) ⟨some "a", some 4, none, none, none⟩).2 "a"
      (fun i => i) 1).1 =
      generateId (generateConfig ⟨some "a", some 4, none, none, none⟩)
        (fun i => i) 1 :=
  (custom_lookup _ "a" (fun i => i) 1).2.2 ⟨some "a", some 4, none, none, none⟩
    ⟨"a", 8, false, "hex", true⟩ (by decide) rfl (by decide)

/-- C7: `add` and `remove` fail with `MissingName` exactly when the supplied
name is absent or empty; `remove` with a non-empty name never fails, and
removing an unregistered name is a no-op. -/
theorem add_remove_missingName (reg : Registry)
    (config : IdConfigurationOptions) :
    ((add reg config).1 = .error .missingName ↔
      (config.name = none ∨ config.name = some "")) ∧
    ((remove reg config).1 = .error .missingName ↔
      (config.name = none ∨ config.name = some "")) ∧
    (∀ n, config.name = some n → n ≠ "" → (remove reg config).1 = .ok ()) ∧
    (∀ n, config.name = some n → n ≠ "" → reg n = none →
      (remove reg config).2 = reg) := by
  refine ⟨?_, ?_, ?_, ?_⟩
  · cases hname : config.name with
    | none => simp [add, hname]
    | some n =>
      by_cases hn : n = ""
      · subst hn; simp [add, hname]
      · simp [add, hname, hn]
  · cases hname : config.name with
    | none => simp [remove, hname]
    | some n =>
      by_cases hn : n = ""
      · subst hn; simp [remove, hname]
      · simp [remove, hname, hn]
  · intro n hname hn
    simp [remove, hname, hn]
  · intro n hname hn habsent
    funext k
    by_cases hk : k = n
    · subst hk; simp [remove, hname, hn, habsent]
    · simp [remove, hname, hn, hk]

/-- Witness for C7: an anonymous configuration is rejected by `add`, and
removing the unregistered name `g` leaves the empty registry unchanged. -/
theorem add_remove_missingName_witness :
    (add emptyRegistry ⟨none, none, none, none, none⟩).1 =
        .error .missingName ∧
      (remove emptyRegistry ⟨some "g", none, none, none, none⟩).2 =
        emptyRegistry :=
  ⟨(add_remove_missingName emptyRegistry ⟨none, none, none, none, none⟩).1.mpr
      (Or.inl rfl),
    (add_remove_missingName emptyRegistry
      ⟨some "g", none, none, none, none⟩).2.2.2 "g" rfl (by decide) rfl⟩

/-- C8: normalization fills every omitted field with its default
(length 16, onlyLowerCase false, style extended, urlSafe true) while an
explicit boolean `false` is preserved, and the same normalization is applied
on the create path, the add path, and to every constructor-supplied entry. -/
theorem generateConfig_defaults (o : IdConfigurationOptions) (reg : Registry)
    (l : Option Int) (sty : Option String) (olc us : Option Bool)
    (stream : Nat → Nat) (fuel : Nat)
    (init : List (String × IdConfigurationOptions)) :
    (o.length = none → (generateConfig o).length = 16) ∧
    (o.onlyLowerCase = none → (generateConfig o).onlyLowerCase = false) ∧
    (o.style = none → (generateConfig o).style = "extended") ∧
    (o.urlSafe = none → (generateConfig o).urlSafe = true) ∧
    (o.onlyLowerCase = some false → (generateConfig o).onlyLowerCase = false) ∧
    (o.urlSafe = some false → (generateConfig o).urlSafe = false) ∧
    ((create reg l sty olc us stream fuel).1 =
      generateId (generateConfig ⟨none, l, olc, sty, us⟩) stream fuel) ∧
    (∀ n, o.name = some n → n ≠ "" →
      (add reg o).2 n = some (generateConfig o)) ∧
    ((init.map Prod.fst).Nodup →
      ∀ p ∈ init, mkMikroID init p.1 = some (generateConfig p.2)) := by
  refine ⟨?_, ?_, ?_, ?_, ?_, ?_, rfl, ?_, ?_⟩
  · intro h; simp [generateConfig, h]
  · intro h; simp [generateConfig, h]
  · intro h; simp [generateConfig, h]
  · intro h; simp [generateConfig, h]
  · intro h; simp [generateConfig, h]
  · intro h; simp [generateConfig, h]
  · intro n hname hn
    simp [add, hname, hn]
  · intro hnd p hp
    exact foldl_storeEntry_mem init emptyRegistry hnd p hp

/-- Witness for C8: an options record with only the two explicit `false`
booleans takes the default length, keeps both `false` values, and is stored
normalized by the constructor. -/
theorem generateConfig_defaults_witness :
    (generateConfig ⟨none, none, some false, none, some false⟩).length = 16 ∧
    (generateConfig ⟨none, none, some false, none, some false⟩).urlSafe =
        false ∧
      mkMikroID [("a", ⟨none, none, some false, none, some false⟩)] "a" =
        some (generateConfig ⟨none, none, some false, none, some false⟩) :=
  ⟨(generateConfig_defaults ⟨none, none, some false, none, some false⟩
      emptyRegistry none none none none (fun i => i) 0
      [("a", ⟨none, none, some false, none, some false⟩)]).1 rfl,
    (generateConfig_defaults ⟨none, none, some false, none, some false⟩
      emptyRegistry none none none none (fun i => i) 0
      [("a", ⟨none, none, some false, none, some false⟩)]).2.2.2.2.2.1 rfl,
    (generateConfig_defaults ⟨none, none, some false, none, some false⟩
      emptyRegistry none none none none (fun i => i) 0
      [("a", ⟨none, none, some false, none, some false⟩)]).2.2.2.2.2.2.2.2
      (by simp) ("a", ⟨none, none, some false, none, some false⟩)
      (List.mem_singleton.mpr rfl)⟩

/-- C10: `create` and `custom` return the registry unchanged (also on their
error paths), while `add` and `remove` change at most the entry keyed by the
supplied configuration name. -/
theorem registry_frame (reg : Registry) (l : Option Int) (sty : Option String)
    (olc us : Option Bool) (stream : Nat → Nat) (fuel : Nat) (name : String)
    (config : IdConfigurationOptions) (k : String) :
    ((create reg l sty olc us stream fuel).2 = reg) ∧
    ((custom reg name stream fuel).2 = reg) ∧
    (k ≠ config.name.getD "" → (add reg config).2 k = reg k) ∧
    (k ≠ config.name.getD "" → (remove reg config).2 k = reg k) := by
  refine ⟨rfl, ?_, ?_, ?_⟩
  · cases hreg : reg name with
    | none => simp [custom, hreg]
    | some cfg => simp [custom, hreg]
  · intro hk
    cases hname : config.name with
    | none => simp [add, hname]
    | some n =>
      rw [hname] at hk
      simp only [Option.getD_some] at hk
      by_cases hn : n = ""
      · subst hn; simp [add, hname]
      · simp [add, hname, hn, hk]
  · intro hk
    cases hname : config.name with
    | none => simp [remove, hname]
    | some n =>
      rw [hname] at hk
      simp only [Option.getD_some] at hk
      by_cases hn : n = ""
      · subst hn; simp [remove, hname]
      · simp [remove, hname, hn, hk]

/-- Witness for C10: on the empty registry, `create` keeps the registry and
`add` of name `a` does not touch key `b`. -/
theorem registry_frame_witness :
    (create emptyRegistry none none none none (fun i => i) 0).2 =
        emptyRegistry ∧
      (add emptyRegistry ⟨some "a", none, none, none, none⟩).2 "b" =
        emptyRegistry "b" :=
  ⟨(registry_frame emptyRegistry none none none none (fun i => i) 0 "z"
      ⟨some "a", none, none, none, none⟩ "b").1,
    (registry_frame emptyRegistry none none none none (fun i => i) 0 "z"
      ⟨some "a", none, none, none, none⟩ "b").2.2.1 (by decide)⟩

end MikroID
